import Mathlib

/-!
Shallow embedding of `src/process_receipts_tax.py` (receipt-expense-tracker).

Numeric values that the Python code manipulates as floats are modelled as
exact rationals (`ℚ`); Python's `round(x, 2)` (round-half-to-even) is
modelled exactly by `pyRoundInt`/`round2` below.
-/

namespace ReceiptTracker

/-- Python's built-in `round` to an integer: round half to even. -/
def pyRoundInt (x : ℚ) : ℤ :=
  let f := ⌊x⌋
  let r := x - f
  if r < 1/2 then f
  else if 1/2 < r then f + 1
  else if f % 2 = 0 then f else f + 1

/-- `round(x, 2)` from the source (line 159): round to 2 decimal places. -/
def round2 (x : ℚ) : ℚ := (pyRoundInt (x * 100) : ℚ) / 100

/-- A well-formed receipt item as consumed by the allocation arithmetic in
`append_to_google_sheets` (lines 150-170): `Item`, `Category`, `Price`,
`Taxable` keys. -/
structure Item where
  name : String
  category : String
  price : ℚ
  taxable : Bool
deriving Repr, DecidableEq

/-- A well-formed structured receipt (the dict produced by
`parse_receipt_with_gpt`, as read by `append_to_google_sheets`
lines 145-152). -/
structure Receipt where
  store : String
  date : String
  total : ℚ
  taxTotal : ℚ
  items : List Item
deriving Repr, DecidableEq

/-- Line 151-152: `sum(i["Price"] for i in receipt_data["Items"] if i.get("Taxable"))`. -/
def taxableSubtotal (r : Receipt) : ℚ :=
  ((r.items.filter (·.taxable)).map (·.price)).sum

/-- Line 152: `taxable_subtotal = sum(...) or 1.0` — a zero (falsy) sum is
replaced by `1.0`. -/
def divisor (r : Receipt) : ℚ :=
  if taxableSubtotal r = 0 then 1 else taxableSubtotal r

/-- Line 158: `tax_share = (price / taxable_subtotal) * tax_total if taxable else 0`. -/
def taxShare (r : Receipt) (it : Item) : ℚ :=
  if it.taxable then (it.price / divisor r) * r.taxTotal else 0

/-- One output row (lines 161-170): fixed 8-column schema. -/
structure AllocatedRow where
  receiptId : String
  store : String
  date : String
  item : String
  category : String
  price : ℚ
  taxable : Bool
  priceWithTax : ℚ
deriving Repr, DecidableEq

/-- The row built for one item in the loop body (lines 154-170):
`price_w_tax = round(price + tax_share, 2)`. -/
def allocRow (r : Receipt) (rid : String) (it : Item) : AllocatedRow :=
  { receiptId := rid
    store := r.store
    date := r.date
    item := it.name
    category := it.category
    price := it.price
    taxable := it.taxable
    priceWithTax := round2 (it.price + taxShare r it) }

/-- The full allocation loop (lines 154-170): one appended row per item of
`receipt_data["Items"]`, in order. -/
def allocate (r : Receipt) (rid : String) : List AllocatedRow :=
  r.items.map (allocRow r rid)

/- ### Helper lemmas -/

lemma sum_map_div_mul (l : List ℚ) (d T : ℚ) :
    (l.map (fun p => p / d * T)).sum = l.sum / d * T := by
  induction l with
  | nil => simp
  | cons p rest ih => simp [ih, add_div, add_mul]

lemma pyRoundInt_intCast (k : ℤ) : pyRoundInt (k : ℚ) = k := by
  simp [pyRoundInt]

lemma round2_of_cents (x : ℚ) (k : ℤ) (hx : x = (k : ℚ) / 100) :
    round2 x = x := by
  have h100 : x * 100 = (k : ℚ) := by
    rw [hx]; field_simp
  rw [round2, h100, pyRoundInt_intCast, ← hx]

/- ### Concrete receipts used as witnesses / counterexamples -/

def wr1 : Receipt :=
  ⟨"StoreA", "2024-01-01", 15, 1,
    [⟨"Bananas", "Groceries", 5, false⟩, ⟨"Shampoo", "Health", 9, true⟩]⟩

def wr3 : Receipt :=
  ⟨"StoreB", "2024-01-02", 12, 7,
    [⟨"a", "Other", 5, false⟩, ⟨"b", "Other", 0, true⟩]⟩

def cr4 : Receipt := ⟨"StoreC", "", 1, 2, [⟨"x", "Other", 1/3, false⟩]⟩

def cr5 : Receipt := ⟨"StoreD", "", 1, 0, [⟨"y", "Other", 1/3, true⟩]⟩

/- ### Claims about the allocation arithmetic -/

/-- C1: for every receipt with strictly positive taxable subtotal, the sum
over taxable items of the computed `tax_share` equals the receipt's tax
total within a tolerance of `0.01 × (number of items)` (in exact rational
arithmetic the sum is exactly the tax total). -/
theorem taxShare_sum_eq_taxTotal (r : Receipt) (h : 0 < taxableSubtotal r) :
    |((r.items.filter (·.taxable)).map (taxShare r)).sum - r.taxTotal| ≤
      (1/100 : ℚ) * r.items.length := by
  have hne : taxableSubtotal r ≠ 0 := ne_of_gt h
  have hdiv : divisor r = taxableSubtotal r := by rw [divisor, if_neg hne]
  have hmap : (r.items.filter (·.taxable)).map (taxShare r)
      = ((r.items.filter (·.taxable)).map (·.price)).map
          (fun p => p / divisor r * r.taxTotal) := by
    rw [List.map_map]
    refine List.map_congr_left ?_
    intro it hit
    have htx : it.taxable = true := by
      simpa using (List.mem_filter.mp hit).2
    simp [taxShare, htx]
  rw [hmap, sum_map_div_mul]
  have hsum : ((r.items.filter (·.taxable)).map (·.price)).sum
      = taxableSubtotal r := rfl
  rw [hsum, hdiv, div_self hne, one_mul, sub_self, abs_zero]
  positivity

lemma wr1_subtotal_pos : 0 < taxableSubtotal wr1 := by
  norm_num [taxableSubtotal, wr1, List.filter]

theorem taxShare_sum_eq_taxTotal_witness :
    0 < taxableSubtotal wr1 ∧
      |((wr1.items.filter (·.taxable)).map (taxShare wr1)).sum - wr1.taxTotal| ≤
        (1/100 : ℚ) * wr1.items.length :=
  ⟨wr1_subtotal_pos, taxShare_sum_eq_taxTotal wr1 wr1_subtotal_pos⟩

/-- C3: when every taxable item is priced at zero (hence the taxable
subtotal is zero), the substituted divisor is nonzero (no division by
zero) and every item's `tax_share` is `0`, whatever the tax total. -/
theorem zero_taxable_subtotal_safe (r : Receipt)
    (h : ∀ it ∈ r.items, it.taxable = true → it.price = 0) :
    taxableSubtotal r = 0 ∧ divisor r ≠ 0 ∧ ∀ it ∈ r.items, taxShare r it = 0 := by
  have hsub : taxableSubtotal r = 0 := by
    apply List.sum_eq_zero
    intro p hp
    rw [List.mem_map] at hp
    obtain ⟨it, hit, hpe⟩ := hp
    have hmem := List.mem_filter.mp hit
    exact hpe ▸ h it hmem.1 (by simpa using hmem.2)
  refine ⟨hsub, ?_, ?_⟩
  · rw [divisor, if_pos hsub]; norm_num
  · intro it hit
    by_cases ht : it.taxable = true
    · rw [taxShare, if_pos ht, h it hit ht, zero_div, zero_mul]
    · rw [taxShare, if_neg ht]

theorem zero_taxable_subtotal_safe_witness :
    (∀ it ∈ wr3.items, it.taxable = true → it.price = 0) ∧
      (taxableSubtotal wr3 = 0 ∧ divisor wr3 ≠ 0 ∧
        ∀ it ∈ wr3.items, taxShare wr3 it = 0) :=
  ⟨by decide, zero_taxable_subtotal_safe wr3 (by decide)⟩

/-- C4 counterexample: on a non-taxable item priced 1/3, the produced
`price_w_tax` is `round(1/3, 2) = 0.33 ≠ 1/3`, so the row's final price is
not the item's price. -/
lemma round2_third : round2 ((1 : ℚ)/3) = 33/100 := by
  have hfl : ⌊((1 : ℚ)/3 * 100)⌋ = 33 := by norm_num
  rw [round2, pyRoundInt]
  norm_num [hfl]

theorem nontaxable_final_price_cex :
    ¬ (∀ it ∈ cr4.items, it.taxable = false →
        taxShare cr4 it = 0 ∧
          (allocRow cr4 "RCT-000000" it).priceWithTax = it.price) := by
  intro hall
  have h := (hall ⟨"x", "Other", 1/3, false⟩ (by simp [cr4]) rfl).2
  rw [allocRow] at h
  simp only [taxShare, if_neg (by simp : ¬((⟨"x", "Other", 1/3, false⟩ : Item).taxable = true))] at h
  rw [add_zero, round2_third] at h
  norm_num at h

/-- C4 amended: for a non-taxable item, `tax_share = 0` and the final price
is the item's price rounded to 2 decimal places — equal to the price itself
whenever the price is a whole number of cents. -/
theorem nontaxable_row_amended (r : Receipt) (rid : String) (it : Item)
    (h : it.taxable = false) :
    taxShare r it = 0 ∧
      (allocRow r rid it).priceWithTax = round2 it.price ∧
      ∀ k : ℤ, it.price = (k : ℚ) / 100 →
        (allocRow r rid it).priceWithTax = it.price := by
  have hts : taxShare r it = 0 := by
    rw [taxShare, if_neg (by simp [h])]
  refine ⟨hts, by simp [allocRow, hts], ?_⟩
  intro k hk
  simp [allocRow, hts, round2_of_cents it.price k hk]

theorem nontaxable_row_amended_witness :
    ((⟨"Bananas", "Groceries", 5, false⟩ : Item).taxable = false) ∧
      (taxShare wr1 ⟨"Bananas", "Groceries", 5, false⟩ = 0 ∧
        (allocRow wr1 "RCT-ABC" ⟨"Bananas", "Groceries", 5, false⟩).priceWithTax
          = round2 (5 : ℚ) ∧
        ∀ k : ℤ, (5 : ℚ) = (k : ℚ) / 100 →
          (allocRow wr1 "RCT-ABC" ⟨"Bananas", "Groceries", 5, false⟩).priceWithTax
            = (5 : ℚ)) :=
  ⟨rfl, nontaxable_row_amended wr1 "RCT-ABC" ⟨"Bananas", "Groceries", 5, false⟩ rfl⟩

/-- C5 counterexample: with tax total `0` and a taxable item priced 1/3,
the final price is `round(1/3, 2) = 0.33 ≠ 1/3`. -/
theorem zero_tax_final_price_cex :
    cr5.taxTotal = 0 ∧
      ¬ (∀ it ∈ cr5.items,
          (allocRow cr5 "RCT-000000" it).priceWithTax = it.price) := by
  refine ⟨rfl, ?_⟩
  intro hall
  have h := hall ⟨"y", "Other", 1/3, true⟩ (by simp [cr5])
  rw [allocRow] at h
  have hts : taxShare cr5 ⟨"y", "Other", 1/3, true⟩ = 0 := by
    rw [taxShare, if_pos rfl]
    show (1/3 : ℚ) / divisor cr5 * cr5.taxTotal = 0
    rw [show cr5.taxTotal = 0 from rfl, mul_zero]
  simp only [hts] at h
  rw [add_zero, round2_third] at h
  norm_num at h

/-- C5 amended: with tax total `0`, every item's `tax_share` is `0` and its
final price is the price rounded to 2 decimal places — equal to the price
itself whenever the price is a whole number of cents. -/
theorem zero_tax_total_rows (r : Receipt) (rid : String) (h : r.taxTotal = 0) :
    ∀ it ∈ r.items, taxShare r it = 0 ∧
      (allocRow r rid it).priceWithTax = round2 it.price ∧
      ∀ k : ℤ, it.price = (k : ℚ) / 100 →
        (allocRow r rid it).priceWithTax = it.price := by
  intro it _
  have hts : taxShare r it = 0 := by
    rw [taxShare]
    split
    · rw [h, mul_zero]
    · rfl
  refine ⟨hts, by simp [allocRow, hts], ?_⟩
  intro k hk
  simp [allocRow, hts, round2_of_cents it.price k hk]

def wr5 : Receipt := ⟨"StoreE", "", 5, 0, [⟨"z", "Other", 5, true⟩]⟩

theorem zero_tax_total_rows_witness :
    wr5.taxTotal = 0 ∧
      (∀ it ∈ wr5.items, taxShare wr5 it = 0 ∧
        (allocRow wr5 "RCT-XYZ" it).priceWithTax = round2 it.price ∧
        ∀ k : ℤ, it.price = (k : ℚ) / 100 →
          (allocRow wr5 "RCT-XYZ" it).priceWithTax = it.price) :=
  ⟨rfl, zero_tax_total_rows wr5 "RCT-XYZ" rfl⟩

/-- C6: allocation emits exactly one row per input item, and row `i`
carries item `i`'s name, so the original item order is preserved. -/
theorem allocate_length_order (r : Receipt) (rid : String) :
    (allocate r rid).length = r.items.length ∧
      ∀ i : Nat, ((allocate r rid)[i]?).map (·.item)
        = (r.items[i]?).map (·.name) := by
  constructor
  · simp [allocate]
  · intro i
    rw [allocate, List.getElem?_map]
    cases r.items[i]? <;> simp [allocRow]

/- ### JSON-substring extraction (`parse_receipt_with_gpt`, lines 126-129) -/

def openBrace : Char := Char.ofNat 123

def closeBrace : Char := Char.ofNat 125

/-- Longest prefix of the list that ends at its last closing brace, `none`
when the list has no closing brace. -/
def takeToLastClose : List Char → Option (List Char)
  | [] => none
  | c :: rest =>
    match takeToLastClose rest with
    | some t => some (c :: t)
    | none => if c = closeBrace then some [c] else none

/-- The regex search of line 126 (an opening brace, a greedy dot-star under
DOTALL, a closing brace): the match runs from the first opening brace of
the response to the last closing brace of the whole response; there is no
match when no opening brace is followed by a later closing brace. -/
def extractJson : List Char → Option (List Char)
  | [] => none
  | c :: rest =>
    if c = openBrace then
      match takeToLastClose rest with
      | some t => some (c :: t)
      | none => none
    else
      extractJson rest

def extractJsonStr (s : String) : Option String :=
  (extractJson s.toList).map (fun cs => String.mk cs)

/- ### Model-fallback parsing (`parse_receipt_with_gpt`, lines 80-139) -/

/-- One backend attempt (lines 116-133): `complete` models the
chat-completion call (model name to response content, or a raised client
error), `loads` models `json.loads` on the extracted substring (returning
the deserialized value, or a raised decode error). -/
def attempt {α : Type} (complete : String → Except String String)
    (loads : String → Except String α) (model : String) :
    Except String α :=
  match complete model with
  | .error e => .error e
  | .ok content =>
    match extractJsonStr content with
    | none => .error "No JSON object found in response"
    | some js => loads js

/-- Line 81: the ordered fallback list, strongest model first. -/
def models_to_try : List String := ["gpt-4-turbo", "gpt-3.5-turbo"]

/-- The fallback loop (lines 114-139): try each model in order, remember
the last error, and raise the terminal error once the list is exhausted. -/
def tryModels {α : Type} (complete : String → Except String String)
    (loads : String → Except String α) :
    List String → Option String → Except String α
  | [], lastErr =>
    .error ("All model attempts failed. Last error: " ++ lastErr.getD "None")
  | m :: rest, _ =>
    match attempt complete loads m with
    | .ok r => .ok r
    | .error e => tryModels complete loads rest (some e)

def parse_receipt_with_gpt {α : Type} (complete : String → Except String String)
    (loads : String → Except String α) : Except String α :=
  tryModels complete loads models_to_try none

/- ### Characterization of the regex extraction -/

lemma takeToLastClose_none {l : List Char} (h : takeToLastClose l = none) :
    closeBrace ∉ l := by
  induction l with
  | nil => simp
  | cons c rest ih =>
    cases hr : takeToLastClose rest with
    | some t =>
      simp only [takeToLastClose, hr] at h
      exact absurd h (by simp)
    | none =>
      simp only [takeToLastClose, hr] at h
      by_cases hc : c = closeBrace
      · simp [hc] at h
      · simp only [List.mem_cons]
        rintro (hcl | hcl)
        · exact hc hcl.symm
        · exact ih hr hcl

lemma takeToLastClose_some {l t : List Char} :
    takeToLastClose l = some t →
    ∃ post, l = t ++ post ∧ t.getLast? = some closeBrace ∧ closeBrace ∉ post := by
  induction l generalizing t with
  | nil => intro h; simp [takeToLastClose] at h
  | cons c rest ih =>
    intro h
    cases hr : takeToLastClose rest with
    | some t' =>
      simp only [takeToLastClose, hr, Option.some.injEq] at h
      subst h
      obtain ⟨post, hpost, hlast, hnot⟩ := ih hr
      have ht' : t' ≠ [] := by
        intro he; rw [he] at hlast; simp at hlast
      refine ⟨post, ?_, ?_, hnot⟩
      · rw [List.cons_append, hpost]
      · cases t' with
        | nil => exact absurd rfl ht'
        | cons x xs => rw [List.getLast?_cons_cons]; exact hlast
    | none =>
      simp only [takeToLastClose, hr] at h
      by_cases hc : c = closeBrace
      · rw [if_pos hc, Option.some.injEq] at h
        subst h
        exact ⟨rest, rfl, by simp [hc], takeToLastClose_none hr⟩
      · rw [if_neg hc] at h
        exact absurd h (by simp)

lemma extractJson_some {s t : List Char} :
    extractJson s = some t →
    ∃ pre post, s = pre ++ t ++ post ∧ t.head? = some openBrace ∧
      openBrace ∉ pre ∧ t.getLast? = some closeBrace ∧ closeBrace ∉ post := by
  induction s generalizing t with
  | nil => intro h; simp [extractJson] at h
  | cons c rest ih =>
    intro h
    by_cases hc : c = openBrace
    · cases hr : takeToLastClose rest with
      | some t' =>
        simp only [extractJson, if_pos hc, hr, Option.some.injEq] at h
        subst h
        obtain ⟨post, hpost, hlast, hnot⟩ := takeToLastClose_some hr
        have ht' : t' ≠ [] := by
          intro he; rw [he] at hlast; simp at hlast
        refine ⟨[], post, ?_, by simp [hc], by simp, ?_, hnot⟩
        · rw [List.nil_append, List.cons_append, hpost]
        · cases t' with
          | nil => exact absurd rfl ht'
          | cons x xs => rw [List.getLast?_cons_cons]; exact hlast
      | none =>
        simp only [extractJson, if_pos hc, hr] at h
        exact absurd h (by simp)
    · simp only [extractJson, if_neg hc] at h
      obtain ⟨pre, post, hs, hh, hp, hl, hn⟩ := ih h
      refine ⟨c :: pre, post, ?_, hh, ?_, hl, hn⟩
      · rw [List.cons_append, List.cons_append, hs]
      · simp only [List.mem_cons]
        rintro (hoc | hoc)
        · exact hc hoc.symm
        · exact hp hoc

lemma extractJson_none {s : List Char} (h : extractJson s = none) :
    ¬ ∃ pre mid post, s = pre ++ (openBrace :: (mid ++ (closeBrace :: post))) := by
  induction s with
  | nil =>
    rintro ⟨pre, mid, post, hs⟩
    exact absurd hs (by simp)
  | cons c rest ih =>
    by_cases hc : c = openBrace
    · cases hr : takeToLastClose rest with
      | some t =>
        simp only [extractJson, if_pos hc, hr] at h
        exact absurd h (by simp)
      | none =>
        have hncl := takeToLastClose_none hr
        rintro ⟨pre, mid, post, hs⟩
        apply hncl
        cases pre with
        | nil =>
          simp only [List.nil_append, List.cons.injEq] at hs
          rw [hs.2]
          simp
        | cons p ps =>
          simp only [List.cons_append, List.cons.injEq] at hs
          rw [hs.2]
          simp
    · simp only [extractJson, if_neg hc] at h
      rintro ⟨pre, mid, post, hs⟩
      apply ih h
      cases pre with
      | nil =>
        simp only [List.nil_append, List.cons.injEq] at hs
        exact absurd hs.1 hc
      | cons p ps =>
        simp only [List.cons_append, List.cons.injEq] at hs
        exact ⟨ps, mid, post, hs.2⟩

/- ### Spec-side extraction, for comparison with the regex (claim C9) -/

/-- Depth-counting scan: the segment up to the brace that closes an
already-open object, `none` when the braces never close. -/
def closeFrom : List Char → Nat → Option (List Char)
  | [], _ => none
  | c :: rest, depth =>
    if c = openBrace then (closeFrom rest (depth + 1)).map (c :: ·)
    else if c = closeBrace then
      if depth = 1 then some [c]
      else (closeFrom rest (depth - 1)).map (c :: ·)
    else (closeFrom rest depth).map (c :: ·)

/-- Modelled from the spec's words (section 4.2): "locate the first
balanced top-level JSON object substring" — the earliest substring that
opens with a brace and runs to its matching, depth-balanced closing
brace. Written only to be compared against `extractJson`, the embedding
of the code's regex. -/
def specFirstBalancedObject : List Char → Option (List Char)
  | [] => none
  | c :: rest =>
    if c = openBrace then
      match closeFrom rest 1 with
      | some t => some (c :: t)
      | none => specFirstBalancedObject rest
    else
      specFirstBalancedObject rest

/-- A model response holding one JSON object followed by a stray closing
brace. -/
def cexResp : List Char := [openBrace, 'a', closeBrace, 'b', closeBrace]

/- ### Claims C7-C9 -/

/-- C7: when every backend in the fallback list fails, parse raises the
terminal error carrying the last backend's underlying error, and no
receipt value is returned. -/
theorem all_backends_fail {α : Type} (complete : String → Except String String)
    (loads : String → Except String α)
    (h : ∀ m ∈ models_to_try, ∃ e, attempt complete loads m = .error e) :
    (∃ elast, attempt complete loads "gpt-3.5-turbo" = .error elast ∧
      parse_receipt_with_gpt complete loads =
        .error ("All model attempts failed. Last error: " ++ elast)) ∧
      ∀ r : α, parse_receipt_with_gpt complete loads ≠ .ok r := by
  obtain ⟨e1, he1⟩ := h "gpt-4-turbo" (by simp [models_to_try])
  obtain ⟨e2, he2⟩ := h "gpt-3.5-turbo" (by simp [models_to_try])
  have hp : parse_receipt_with_gpt complete loads =
      .error ("All model attempts failed. Last error: " ++ e2) := by
    simp only [parse_receipt_with_gpt, models_to_try, tryModels, he1, he2,
      Option.getD]
  exact ⟨⟨e2, he2, hp⟩, by simp [hp]⟩

theorem all_backends_fail_witness :
    (∀ m ∈ models_to_try, ∃ e,
        attempt (fun _ => Except.error "boom")
          (fun _ => (Except.error "bad" : Except String Receipt)) m =
          Except.error e) ∧
      ((∃ elast,
          attempt (fun _ => Except.error "boom")
            (fun _ => (Except.error "bad" : Except String Receipt))
            "gpt-3.5-turbo" = Except.error elast ∧
          parse_receipt_with_gpt (fun _ => Except.error "boom")
            (fun _ => (Except.error "bad" : Except String Receipt)) =
            Except.error ("All model attempts failed. Last error: " ++ elast)) ∧
        ∀ r : Receipt,
          parse_receipt_with_gpt (fun _ => Except.error "boom")
            (fun _ => (Except.error "bad" : Except String Receipt)) ≠
            Except.ok r) :=
  ⟨fun _ _ => ⟨"boom", rfl⟩,
    all_backends_fail (fun _ => Except.error "boom")
      (fun _ => (Except.error "bad" : Except String Receipt))
      (fun _ _ => ⟨"boom", rfl⟩)⟩

/-- C8: when the first backend fails and the second yields a
deserializable response, parse returns the second backend's result and no
error escapes. -/
theorem fallback_second_succeeds {α : Type}
    (complete : String → Except String String)
    (loads : String → Except String α) (e : String) (r : α)
    (h1 : attempt complete loads "gpt-4-turbo" = .error e)
    (h2 : attempt complete loads "gpt-3.5-turbo" = .ok r) :
    parse_receipt_with_gpt complete loads = .ok r := by
  simp only [parse_receipt_with_gpt, models_to_try, tryModels, h1, h2]

def w8complete : String → Except String String :=
  fun m => if m = "gpt-4-turbo" then Except.error "rate limit"
           else Except.ok "json: \x7b\x7d"

def w8loads : String → Except String Receipt := fun _ => Except.ok wr1

theorem fallback_second_succeeds_witness :
    attempt w8complete w8loads "gpt-4-turbo" = Except.error "rate limit" ∧
      attempt w8complete w8loads "gpt-3.5-turbo" = Except.ok wr1 ∧
      parse_receipt_with_gpt w8complete w8loads = Except.ok wr1 :=
  ⟨rfl, rfl, fallback_second_succeeds w8complete w8loads "rate limit" wr1 rfl rfl⟩

/-- C9 counterexample: on the response consisting of an object followed by
a stray closing brace, the code's regex grabs everything up to the final
(stray) closing brace — an unbalanced substring — while the first balanced
top-level object substring stops at the matching brace; the two extractors
disagree, so the parser does not locate the first balanced object. -/
theorem json_substring_cex :
    extractJson cexResp = some [openBrace, 'a', closeBrace, 'b', closeBrace] ∧
      specFirstBalancedObject cexResp = some [openBrace, 'a', closeBrace] ∧
      extractJson cexResp ≠ specFirstBalancedObject cexResp := by
  refine ⟨rfl, rfl, ?_⟩
  intro h
  rw [show extractJson cexResp =
      some [openBrace, 'a', closeBrace, 'b', closeBrace] from rfl,
    show specFirstBalancedObject cexResp =
      some [openBrace, 'a', closeBrace] from rfl] at h
  simp at h

/-- C9 amended: each backend attempt deserializes the substring running
from the first opening brace of the raw response to the last closing brace
of the whole response (the regex match is greedy and need not be
balanced); when no opening brace is followed by a later closing brace,
there is no match and the attempt fails for that backend. -/
theorem json_substring_amended {α : Type} (loads : String → Except String α)
    (content : String) (m : String) :
    (∀ t, extractJson content.toList = some t →
        (∃ pre post, content.toList = pre ++ t ++ post ∧
          t.head? = some openBrace ∧ openBrace ∉ pre ∧
          t.getLast? = some closeBrace ∧ closeBrace ∉ post) ∧
        attempt (fun _ => .ok content) loads m = loads (String.mk t)) ∧
      (extractJson content.toList = none →
        (¬ ∃ pre mid post, content.toList =
            pre ++ (openBrace :: (mid ++ (closeBrace :: post)))) ∧
        attempt (fun _ => .ok content) loads m =
          .error "No JSON object found in response") := by
  constructor
  · intro t ht
    refine ⟨extractJson_some ht, ?_⟩
    have ht' : extractJson content.data = some t := ht
    simp [attempt, extractJsonStr, String.toList, ht']
  · intro hn
    refine ⟨extractJson_none hn, ?_⟩
    have hn' : extractJson content.data = none := hn
    simp [attempt, extractJsonStr, String.toList, hn']

theorem json_substring_amended_witness :
    (∃ pre post, "x\x7ba\x7dy".toList =
        pre ++ [openBrace, 'a', closeBrace] ++ post ∧
      ([openBrace, 'a', closeBrace] : List Char).head? = some openBrace ∧
      openBrace ∉ pre ∧
      ([openBrace, 'a', closeBrace] : List Char).getLast? = some closeBrace ∧
      closeBrace ∉ post) ∧
      attempt (fun _ => Except.ok "x\x7ba\x7dy") Except.ok "gpt-4-turbo" =
        Except.ok (String.mk [openBrace, 'a', closeBrace]) :=
  (json_substring_amended Except.ok "x\x7ba\x7dy" "gpt-4-turbo").1
    [openBrace, 'a', closeBrace] rfl

/- ### JSON-level receipt data and `append_to_google_sheets` (lines 142-177)

`parse_receipt_with_gpt` returns whatever dict `json.loads` produced, so
`append_to_google_sheets` can be handed malformed data: missing keys raise
`KeyError`, a non-numeric "Price" raises in `sum` or in `float`. The model
below mirrors those failure points and the order they are reached in. -/

/-- A JSON "Price" value: a number (usable by both `sum` and `float`), a
numeric string (accepted by `float`, rejected by `sum`), or anything else
(rejected by both). -/
inductive JPrice where
  | num (q : ℚ)
  | strNum (q : ℚ)
  | other
deriving Repr, DecidableEq

/-- One entry of `receipt_data["Items"]`; `none` models a missing key. -/
structure JItem where
  item : Option String
  category : Option String
  price : Option JPrice
  taxable : Option Bool
deriving Repr, DecidableEq

/-- The dict returned by parsing; `none` models a missing key (the
top-level fields are read with `.get` and a default, `"Items"` with a
raising indexed access). -/
structure JReceipt where
  store : Option String
  date : Option String
  total : Option ℚ
  taxTotal : Option ℚ
  items : Option (List JItem)
deriving Repr, DecidableEq

/-- Line 151: `i.get("Taxable")` truthiness (absent key is falsy). -/
def jTaxable (it : JItem) : Bool := it.taxable.getD false

/-- Line 152: `sum(i["Price"] for i in taxable_items)` — a missing key
raises `KeyError`, adding a non-number raises `TypeError`, both at the
first offending item. -/
def sumPrices : List JItem → Except String ℚ
  | [] => .ok 0
  | it :: rest =>
    match it.price with
    | some (.num q) => (sumPrices rest).map (q + ·)
    | some (.strNum _) => .error "TypeError: unsupported operand"
    | some .other => .error "TypeError: unsupported operand"
    | none => .error "KeyError: Price"

/-- Line 155: `float(item["Price"])`. -/
def floatPrice (it : JItem) : Except String ℚ :=
  match it.price with
  | none => .error "KeyError: Price"
  | some (.num q) => .ok q
  | some (.strNum q) => .ok q
  | some .other => .error "ValueError: could not convert to float"

/-- The loop body, lines 154-170: `float(item["Price"])` first, then the
row literal whose elements force `item["Item"]` and `item["Category"]`. -/
def jRow (taxTotal subtotal : ℚ) (rid store date : String) (it : JItem) :
    Except String AllocatedRow :=
  match floatPrice it with
  | .error e => .error e
  | .ok price =>
    let taxable := it.taxable.getD false
    let share : ℚ := if taxable then (price / subtotal) * taxTotal else 0
    let pwt := round2 (price + share)
    match it.item with
    | none => .error "KeyError: Item"
    | some name =>
      match it.category with
      | none => .error "KeyError: Category"
      | some cat =>
        .ok { receiptId := rid, store := store, date := date, item := name,
              category := cat, price := price, taxable := taxable,
              priceWithTax := pwt }

/-- The whole `for` loop: builds `item_rows`, stopping at the first raise. -/
def jRows (taxTotal subtotal : ℚ) (rid store date : String) :
    List JItem → Except String (List AllocatedRow)
  | [] => .ok []
  | it :: rest =>
    match jRow taxTotal subtotal rid store date it with
    | .error e => .error e
    | .ok row =>
      match jRows taxTotal subtotal rid store date rest with
      | .error e => .error e
      | .ok rows => .ok (row :: rows)

/-- Lines 144-170: everything `append_to_google_sheets` computes before it
talks to the spreadsheet API. -/
def computeRows (jr : JReceipt) (rid : String) :
    Except String (List AllocatedRow) :=
  let taxTotal := jr.taxTotal.getD 0
  let store := jr.store.getD ""
  let date := jr.date.getD ""
  match jr.items with
  | none => .error "KeyError: Items"
  | some items =>
    match sumPrices (items.filter jTaxable) with
    | .error e => .error e
    | .ok s =>
      let subtotal := if s = 0 then 1 else s
      jRows taxTotal subtotal rid store date items

/-- `append_to_google_sheets` (lines 142-177) with an explicit trace of the
spreadsheet-append requests it issues; `sheets` models the external
`values().append(...).execute()` call. The single API call happens at line
172, after the whole loop. -/
def append_to_google_sheets (sheets : List AllocatedRow → Except String Unit)
    (jr : JReceipt) (rid : String) :
    List (List AllocatedRow) × Except String Unit :=
  match computeRows jr rid with
  | .error e => ([], .error e)
  | .ok rows => ([rows], sheets rows)

/-- An item whose row computation raises: a missing `Item`, `Category` or
`Price` key, or a `Price` that `float` rejects. -/
def itemBad (it : JItem) : Prop :=
  it.item = none ∨ it.category = none ∨ it.price = none ∨
    it.price = some JPrice.other

lemma jRows_length {taxTotal subtotal : ℚ} {rid store date : String} :
    ∀ {l : List JItem} {rows}, jRows taxTotal subtotal rid store date l = .ok rows →
      rows.length = l.length := by
  intro l
  induction l with
  | nil => intro rows h; simp only [jRows, Except.ok.injEq] at h; simp [← h]
  | cons it rest ih =>
    intro rows h
    cases h1 : jRow taxTotal subtotal rid store date it with
    | error e =>
      simp only [jRows, h1] at h
      exact absurd h (by simp)
    | ok row =>
      cases h2 : jRows taxTotal subtotal rid store date rest with
      | error e =>
        simp only [jRows, h1, h2] at h
        exact absurd h (by simp)
      | ok rs =>
        simp only [jRows, h1, h2, Except.ok.injEq] at h
        simp [← h, List.length_cons, ih h2]

lemma jRow_error_of_bad {taxTotal subtotal : ℚ} {rid store date : String}
    {it : JItem} (h : itemBad it) :
    ∃ e, jRow taxTotal subtotal rid store date it = .error e := by
  rcases h with h | h | h | h
  · cases hp : it.price with
    | none => exact ⟨"KeyError: Price", by simp [jRow, floatPrice, hp]⟩
    | some p =>
      cases p with
      | num q => exact ⟨"KeyError: Item", by simp [jRow, floatPrice, hp, h]⟩
      | strNum q => exact ⟨"KeyError: Item", by simp [jRow, floatPrice, hp, h]⟩
      | other =>
        exact ⟨"ValueError: could not convert to float",
          by simp [jRow, floatPrice, hp]⟩
  · cases hp : it.price with
    | none => exact ⟨"KeyError: Price", by simp [jRow, floatPrice, hp]⟩
    | some p =>
      cases p with
      | num q =>
        cases hi : it.item with
        | none => exact ⟨"KeyError: Item", by simp [jRow, floatPrice, hp, hi]⟩
        | some nm =>
          exact ⟨"KeyError: Category", by simp [jRow, floatPrice, hp, hi, h]⟩
      | strNum q =>
        cases hi : it.item with
        | none => exact ⟨"KeyError: Item", by simp [jRow, floatPrice, hp, hi]⟩
        | some nm =>
          exact ⟨"KeyError: Category", by simp [jRow, floatPrice, hp, hi, h]⟩
      | other =>
        exact ⟨"ValueError: could not convert to float",
          by simp [jRow, floatPrice, hp]⟩
  · exact ⟨"KeyError: Price", by simp [jRow, floatPrice, h]⟩
  · exact ⟨"ValueError: could not convert to float", by simp [jRow, floatPrice, h]⟩

lemma jRows_error_of_bad {taxTotal subtotal : ℚ} {rid store date : String}
    {l : List JItem} (h : ∃ it ∈ l, itemBad it) :
    ∃ e, jRows taxTotal subtotal rid store date l = .error e := by
  induction l with
  | nil => obtain ⟨it, hmem, _⟩ := h; exact absurd hmem (by simp)
  | cons x rest ih =>
    obtain ⟨it, hmem, hbad⟩ := h
    rcases List.mem_cons.mp hmem with heq | hmem'
    · obtain ⟨e, he⟩ :=
        @jRow_error_of_bad taxTotal subtotal rid store date x (heq ▸ hbad)
      exact ⟨e, by simp [jRows, he]⟩
    · cases h1 : jRow taxTotal subtotal rid store date x with
      | error e => exact ⟨e, by simp [jRows, h1]⟩
      | ok row =>
        obtain ⟨e, he⟩ := ih ⟨it, hmem', hbad⟩
        exact ⟨e, by simp [jRows, h1, he]⟩

/-- C10: the spreadsheet append is issued at most once; a successful run
issues exactly one append carrying one row per item; and whenever the
receipt lacks an `Items` key or any item lacks an `Item`, `Category` or
float-convertible `Price`, the computation raises before any append, so no
partial set of rows is ever written. -/
theorem append_once_after_rows (sheets : List AllocatedRow → Except String Unit)
    (jr : JReceipt) (rid : String) :
    (append_to_google_sheets sheets jr rid).1.length ≤ 1 ∧
      (∀ rows, computeRows jr rid = .ok rows →
        (append_to_google_sheets sheets jr rid).1 = [rows] ∧
          rows.length = (jr.items.getD []).length) ∧
      ((jr.items = none ∨ ∃ it ∈ jr.items.getD [], itemBad it) →
        (append_to_google_sheets sheets jr rid).1 = [] ∧
          ∃ e, computeRows jr rid = .error e) := by
  refine ⟨?_, ?_, ?_⟩
  · cases h : computeRows jr rid with
    | error e => simp [append_to_google_sheets, h]
    | ok rows => simp [append_to_google_sheets, h]
  · intro rows h
    refine ⟨by simp [append_to_google_sheets, h], ?_⟩
    cases hi : jr.items with
    | none =>
      simp only [computeRows, hi] at h
      exact absurd h (by simp)
    | some items =>
      simp only [computeRows, hi] at h
      cases hs : sumPrices (items.filter jTaxable) with
      | error e =>
        simp only [hs] at h
        exact absurd h (by simp)
      | ok s =>
        simp only [hs] at h
        simp [hi, jRows_length h]
  · intro hbad
    rcases hbad with hnone | ⟨it, hmem, hb⟩
    · refine ⟨?_, "KeyError: Items", ?_⟩ <;>
        simp [append_to_google_sheets, computeRows, hnone]
    · cases hi : jr.items with
      | none =>
        refine ⟨?_, "KeyError: Items", ?_⟩ <;>
          simp [append_to_google_sheets, computeRows, hi]
      | some items =>
        rw [hi] at hmem
        simp only [Option.getD_some] at hmem
        have herr : ∃ e, computeRows jr rid = .error e := by
          cases hs : sumPrices (items.filter jTaxable) with
          | error e => exact ⟨e, by simp [computeRows, hi, hs]⟩
          | ok s =>
            obtain ⟨e, he⟩ :=
              @jRows_error_of_bad (jr.taxTotal.getD 0) (if s = 0 then 1 else s)
                rid (jr.store.getD "") (jr.date.getD "") items ⟨it, hmem, hb⟩
            exact ⟨e, by simp [computeRows, hi, hs, he]⟩
        obtain ⟨e, he⟩ := herr
        exact ⟨by simp [append_to_google_sheets, he], e, he⟩

/-- A parsed dict whose single item lacks the `Item` key. -/
def jrBad : JReceipt :=
  { store := some "StoreF", date := none, total := some 5, taxTotal := some 1,
    items := some [⟨none, some "Other", some (JPrice.num 5), some false⟩] }

theorem append_once_after_rows_witness :
    (append_to_google_sheets (fun _ => Except.ok ()) jrBad "RCT-1").1 = [] ∧
      ∃ e, computeRows jrBad "RCT-1" = Except.error e :=
  (append_once_after_rows (fun _ => Except.ok ()) jrBad "RCT-1").2.2
    (Or.inr ⟨⟨none, some "Other", some (JPrice.num 5), some false⟩,
      by simp [jrBad], Or.inl rfl⟩)

/- ### The per-file pipeline (`process_all_receipts`, lines 184-210) -/

/-- Where a processed file ends up. -/
inductive Outcome where
  | archived (receiptId : String)
  | errored (msg : String)
deriving Repr, DecidableEq

/-- The external collaborators of one run: `extract` models
`extract_text_from_image` (OCR / text layer), `complete` models the chat
call for a given OCR text and model name, `loads` models `json.loads`,
`sheets` models the spreadsheet append request. -/
structure Stages where
  extract : String → Except String String
  complete : String → String → Except String String
  loads : String → Except String JReceipt
  sheets : List AllocatedRow → Except String Unit

/-- `log_message` (lines 179-182): a timestamped line. -/
def logLine (ts msg : String) : String := "[" ++ ts ++ "] " ++ msg

/-- The failure log message of line 209. -/
def failMsg (filename e : String) : String :=
  "❌ Failed to process " ++ filename ++ ": " ++ e

/-- The success log message of line 206. -/
def successMsg (filename rid : String) : String :=
  "✅ Processed and archived: " ++ filename ++ " as " ++ rid

/-- Lines 205 and 208: the folder a file is moved into. -/
def destFolder : Outcome → String
  | .archived _ => "archive"
  | .errored _ => "errors"

/-- The `try` body of lines 199-210 for one file: extract, parse with
fallback, allocate-and-append; the single `except` clause catches a raise
from any stage, moves the file to the error folder and logs the failure;
success archives the file and logs the receipt id. -/
def process_one (st : Stages) (rid ts filename : String) : Outcome × String :=
  match st.extract filename with
  | .error e => (.errored e, logLine ts (failMsg filename e))
  | .ok text =>
    match parse_receipt_with_gpt (st.complete text) st.loads with
    | .error e => (.errored e, logLine ts (failMsg filename e))
    | .ok receiptData =>
      match (append_to_google_sheets st.sheets receiptData rid).2 with
      | .error e => (.errored e, logLine ts (failMsg filename e))
      | .ok _ => (.archived rid, logLine ts (successMsg filename rid))

/-- The first error raised by any stage while processing one file, if any. -/
def stageError (st : Stages) (rid filename : String) : Option String :=
  match st.extract filename with
  | .error e => some e
  | .ok text =>
    match parse_receipt_with_gpt (st.complete text) st.loads with
    | .error e => some e
    | .ok receiptData =>
      match (append_to_google_sheets st.sheets receiptData rid).2 with
      | .error e => some e
      | .ok _ => none

/-- `is_image_file` (lines 49-50). -/
def is_image_file (filename : String) : Bool :=
  [".jpg", ".jpeg", ".png", ".heic", ".webp", ".pdf"].any
    (fun ext => filename.toLower.endsWith ext)

/-- The eligibility filter of lines 194-197: the run log and files without
a recognized extension are skipped (the `os.path.isfile` test is outside
this model, which receives the names of regular files). -/
def eligible (filename : String) : Bool :=
  filename != "run_log.txt" && is_image_file filename

/-- The `for` loop of lines 192-210: each eligible file is processed with a
fresh receipt id (`genId` indexes the id generator) and the loop continues
past failures; the list collects, per processed file, its name, its
outcome, and the log line appended for it. -/
def process_all_receipts (st : Stages) (genId : Nat → String) (ts : String) :
    List String → Nat → List (String × Outcome × String)
  | [], _ => []
  | f :: rest, i =>
    if eligible f then
      (f, process_one st (genId i) ts f) ::
        process_all_receipts st genId ts rest (i + 1)
    else
      process_all_receipts st genId ts rest i

lemma process_all_fst (st : Stages) (genId : Nat → String) (ts : String) :
    ∀ (files : List String) (i : Nat),
      (process_all_receipts st genId ts files i).map Prod.fst =
        files.filter eligible := by
  intro files
  induction files with
  | nil => intro i; rfl
  | cons f rest ih =>
    intro i
    by_cases h : eligible f
    · simp [process_all_receipts, h, List.filter_cons, ih]
    · simp [process_all_receipts, h, List.filter_cons, ih]

lemma process_all_mem (st : Stages) (genId : Nat → String) (ts : String) :
    ∀ (files : List String) (i : Nat) (p : String × Outcome × String),
      p ∈ process_all_receipts st genId ts files i →
        ∃ rid, p.2 = process_one st rid ts p.1 := by
  intro files
  induction files with
  | nil => intro i p hp; exact absurd hp (by simp [process_all_receipts])
  | cons f rest ih =>
    intro i p hp
    by_cases h : eligible f
    · rw [process_all_receipts, if_pos h] at hp
      rcases List.mem_cons.mp hp with heq | hmem
      · exact ⟨genId i, by rw [heq]⟩
      · exact ih (i + 1) p hmem
    · rw [process_all_receipts, if_neg h] at hp
      exact ih i p hp

/-- C2: every eligible file is processed, in order, failures included (the
run never stops at a failed file); each processed file gets exactly one
outcome, produced by the per-file try/except; a stage error routes the
file to the error folder with the timestamped failure log line carrying
the error message, and an error-free run routes it to the archive folder
with the timestamped success line carrying the receipt id; the two folders
are mutually exclusive. -/
theorem per_file_routing (st : Stages) (genId : Nat → String) (ts : String)
    (files : List String) :
    ((process_all_receipts st genId ts files 0).map Prod.fst =
        files.filter eligible) ∧
      (∀ p ∈ process_all_receipts st genId ts files 0,
        ∃ rid, p.2 = process_one st rid ts p.1) ∧
      (∀ rid f,
        (∀ e, stageError st rid f = some e →
          process_one st rid ts f =
            (.errored e, logLine ts (failMsg f e))) ∧
        (stageError st rid f = none →
          process_one st rid ts f =
            (.archived rid, logLine ts (successMsg f rid)))) ∧
      (∀ o : Outcome, (destFolder o = "archive" ∨ destFolder o = "errors") ∧
        ¬ (destFolder o = "archive" ∧ destFolder o = "errors")) := by
  refine ⟨process_all_fst st genId ts files 0,
    fun p hp => process_all_mem st genId ts files 0 p hp, ?_, ?_⟩
  · intro rid f
    constructor
    · intro e he
      cases h1 : st.extract f with
      | error e1 =>
        simp only [stageError, h1, Option.some.injEq] at he
        simp [process_one, h1, he]
      | ok text =>
        cases h2 : parse_receipt_with_gpt (st.complete text) st.loads with
        | error e2 =>
          simp only [stageError, h1, h2, Option.some.injEq] at he
          simp [process_one, h1, h2, he]
        | ok rd =>
          cases h3 : (append_to_google_sheets st.sheets rd rid).2 with
          | error e3 =>
            simp only [stageError, h1, h2, h3, Option.some.injEq] at he
            simp [process_one, h1, h2, h3, he]
          | ok u =>
            simp only [stageError, h1, h2, h3] at he
            exact absurd he (by simp)
    · intro he
      cases h1 : st.extract f with
      | error e1 =>
        simp only [stageError, h1] at he
        exact absurd he (by simp)
      | ok text =>
        cases h2 : parse_receipt_with_gpt (st.complete text) st.loads with
        | error e2 =>
          simp only [stageError, h1, h2] at he
          exact absurd he (by simp)
        | ok rd =>
          cases h3 : (append_to_google_sheets st.sheets rd rid).2 with
          | error e3 =>
            simp only [stageError, h1, h2, h3] at he
            exact absurd he (by simp)
          | ok u => simp [process_one, h1, h2, h3]
  · intro o
    cases o with
    | archived rid => exact ⟨Or.inl rfl, by simp [destFolder]⟩
    | errored msg => exact ⟨Or.inr rfl, by simp [destFolder]⟩

/-- A run whose OCR stage always raises an I/O error. -/
def cst : Stages :=
  { extract := fun _ => Except.error "io error"
    complete := fun _ _ => Except.error "unused"
    loads := fun _ => Except.error "unused"
    sheets := fun _ => Except.ok () }

theorem per_file_routing_witness :
    process_one cst "RCT-1" "2024-01-01 00:00:00" "r.jpg" =
      (Outcome.errored "io error",
        logLine "2024-01-01 00:00:00" (failMsg "r.jpg" "io error")) :=
  ((per_file_routing cst (fun _ => "RCT-1") "2024-01-01 00:00:00"
      ["r.jpg"]).2.2.1 "RCT-1" "r.jpg").1 "io error" rfl

end ReceiptTracker
